import Mathlib

/-!
Shallow embedding of the health-check engine of src/monitor.py (host-monitor):
the Target data model, the ping and tcp probe state updates, the CSV
persistence log, the cycle runner and the uptime calculation.

External effects are passed in explicitly: the icmplib ping call and the
socket connect are inputs of type Except (an exception message, or the
returned measurement), clock readings are rational parameters, and the
filesystem append of log_result is a boolean flag of the environment
(true when the open and write succeed). Python floats are modelled as
rationals; none of the verified claims depends on float rounding.
-/

namespace HostMonitor

/-- The Target dataclass of src/monitor.py (lines 24-35). `history` models
`deque(maxlen=100)` as a list with the oldest entry first. -/
structure Target where
  name : String
  host : String
  type : String
  port : Option Nat := none
  status : String := "UNKNOWN"
  last_rtt_ms : Option ℚ := none
  last_checked : Option ℚ := none
  last_error : Option String := none
  history : List String := []
deriving DecidableEq

/-- Python `deque(maxlen := m).append x`: appending to a full deque first
evicts the oldest (leftmost) entry. -/
def dequeAppend (maxlen : Nat) (xs : List String) (x : String) : List String :=
  let ys := xs ++ [x]
  ys.drop (ys.length - maxlen)

/-- Modelled from the external icmplib dependency called at src/monitor.py
line 101: the Host value returned by `ping`, carrying the number of echo
requests sent and the round-trip times of the successful replies. -/
structure PingHost where
  packets_sent : Nat
  rtts : List ℚ
deriving DecidableEq

/-- icmplib `Host.packets_received`: the number of successful replies. -/
def PingHost.packets_received (h : PingHost) : Nat := h.rtts.length

/-- icmplib `Host.packet_loss`: 0.0 when nothing was sent, else
`1 - received / sent` (a fraction in [0, 1]). -/
def PingHost.packet_loss (h : PingHost) : ℚ :=
  if h.packets_sent = 0 then 0
  else 1 - (h.packets_received : ℚ) / (h.packets_sent : ℚ)

/-- icmplib `Host.avg_rtt`: 0.0 when there are no replies, else the mean of
the successful reply round-trip times. Always a number, never absent. -/
def PingHost.avg_rtt (h : PingHost) : ℚ :=
  if h.rtts = [] then 0 else h.rtts.sum / (h.rtts.length : ℚ)

/-- State of the CSV log file at LOG_PATH: whether the file exists, and its
rows (each row a list of cell strings). -/
structure LogFile where
  present : Bool := false
  rows : List (List String) := []
deriving DecidableEq

/-- The header row written by log_result on first creation (lines 69-81). -/
def headerRow : List String :=
  ["timestamp", "name", "host", "type", "port", "status", "rtt_ms", "error"]

/-- The character for a single decimal digit `d % 10`. -/
def digitChar (d : Nat) : Char := Char.ofNat (48 + d % 10)

/-- The three fractional digits of a .3f formatted number: `k` (the rounded
value times 1000, modulo 1000) zero-padded to exactly three digits. -/
def frac3 (k : Nat) : String :=
  String.mk [digitChar (k / 100), digitChar (k / 10), digitChar k]

/-- Python `f"{x:.3f}"` (line 90): the value rounded to three decimals with
the fractional part always exactly three digits. (The decimal rounding mode
of CPython float formatting is abstracted by `round`; no claim depends on
the rounding mode.) -/
def fmt3 (q : ℚ) : String :=
  let n : ℤ := round (q * 1000)
  let intPart := (if n < 0 then "-" else "") ++ toString (n.natAbs / 1000)
  intPart ++ "." ++ frac3 (n.natAbs % 1000)

/-- The port cell `target.port or ""` (line 88): empty for None, and also
empty for port 0 because 0 is falsy in Python. -/
def portField (p : Option Nat) : String :=
  match p with
  | none => ""
  | some n => if n = 0 then "" else toString n

/-- The rtt_ms cell (lines 90-92): empty when last_rtt_ms is None, else the
value formatted to three decimal places. -/
def rttField (r : Option ℚ) : String :=
  match r with
  | none => ""
  | some q => fmt3 q

/-- The error cell `target.last_error or ""` (line 93). -/
def errorField (e : Option String) : String := e.getD ""

/-- The data row written for one probe outcome (lines 82-95); `ts` is the
`datetime.utcnow().isoformat()` string. -/
def resultRow (ts : String) (t : Target) : List String :=
  [ts, t.name, t.host, t.type, portField t.port, t.status,
   rttField t.last_rtt_ms, errorField t.last_error]

/-- log_result (lines 64-95), success path: creates the file with the header
row if it did not exist, then appends exactly one data row. -/
def log_result (ts : String) (t : Target) (log : LogFile) : LogFile :=
  { present := true
    rows := log.rows ++ (if log.present then [] else [headerRow]) ++ [resultRow ts t] }

/-- Ambient effects of one probe invocation: the `time.time()` reading, the
log timestamp string, and whether the filesystem append in log_result
succeeds (false models an OSError from mkdir / open / write). -/
structure ProbeEnv where
  now : ℚ
  ts : String
  logOk : Bool
deriving DecidableEq

/-- The in-memory target update of check_ping (lines 98-118): the external
ping call either returns a PingHost or raises with message `e`; both
branches append the freshly assigned status to history, and `finally` sets
last_checked. -/
def check_ping_update (res : Except String PingHost) (now : ℚ) (t : Target) : Target :=
  match res with
  | .ok r =>
      let st := if r.packet_loss < 1 then "UP" else "DOWN"
      { t with status := st, last_rtt_ms := some r.avg_rtt, last_error := none,
               history := dequeAppend 100 t.history st, last_checked := some now }
  | .error e =>
      { t with status := "DOWN", last_rtt_ms := none, last_error := some e,
               history := dequeAppend 100 t.history "DOWN", last_checked := some now }

/-- check_ping (lines 98-119) as one step on the target and the log. The
boolean is true when an exception escapes the call: only the log_result call
in `finally` can raise (the ping exception itself is caught). On a log
failure the in-memory update has already happened and the log is unchanged. -/
def check_ping_run (res : Except String PingHost) (env : ProbeEnv)
    (t : Target) (log : LogFile) : Target × LogFile × Bool :=
  let t2 := check_ping_update res env.now t
  if env.logOk then (t2, log_result env.ts t2 log, false) else (t2, log, true)

/-- The in-memory target update of check_tcp (lines 122-147): the port-None
short circuit (which touches neither last_rtt_ms nor the network), else the
connect either succeeds with measured duration `d` milliseconds or raises
with message `e`. -/
def check_tcp_update (res : Except String ℚ) (now : ℚ) (t : Target) : Target :=
  match t.port with
  | none =>
      { t with status := "DOWN", last_error := some "TCP check requires port",
               last_checked := some now, history := dequeAppend 100 t.history "DOWN" }
  | some _ =>
      match res with
      | .ok d =>
          { t with status := "UP", last_rtt_ms := some d, last_error := none,
                   history := dequeAppend 100 t.history "UP", last_checked := some now }
      | .error e =>
          { t with status := "DOWN", last_rtt_ms := none, last_error := some e,
                   history := dequeAppend 100 t.history "DOWN", last_checked := some now }

/-- check_tcp (lines 122-148) as one step on the target and the log, with
the same escape convention as check_ping_run. -/
def check_tcp_run (res : Except String ℚ) (env : ProbeEnv)
    (t : Target) (log : LogFile) : Target × LogFile × Bool :=
  let t2 := check_tcp_update res env.now t
  if env.logOk then (t2, log_result env.ts t2 log, false) else (t2, log, true)

/-- External inputs for one target position within a cycle: the ping result
(used when the kind is ping), the connect result (used when the kind is tcp
and a port is set), and the ambient probe environment. -/
structure CycleEnv where
  pingRes : Except String PingHost
  tcpRes : Except String ℚ
  env : ProbeEnv

/-- The per-target dispatch of run_one_cycle (lines 151-156), in-memory
part: ping and tcp kinds run their check, any other kind is skipped. -/
def dispatch (e : CycleEnv) (t : Target) : Target :=
  if t.type = "ping" then check_ping_update e.pingRes e.env.now t
  else if t.type = "tcp" then check_tcp_update e.tcpRes e.env.now t
  else t

/-- run_one_cycle (lines 151-156): probes each target in list order. A check
call that raises (a log_result failure) aborts the for loop: the raising
target keeps its in-memory update, later targets are untouched. Returns the
updated target list, the log, and whether an exception escaped the cycle. -/
def run_one_cycle (envs : List CycleEnv) (targets : List Target) (log : LogFile) :
    List Target × LogFile × Bool :=
  match targets, envs with
  | [], _ => ([], log, false)
  | ts, [] => (ts, log, false)
  | t :: rest, e :: es =>
      if t.type = "ping" then
        let r := check_ping_run e.pingRes e.env t log
        if r.2.2 then (r.1 :: rest, r.2.1, true)
        else
          let rr := run_one_cycle es rest r.2.1
          (r.1 :: rr.1, rr.2)
      else if t.type = "tcp" then
        let r := check_tcp_run e.tcpRes e.env t log
        if r.2.2 then (r.1 :: rest, r.2.1, true)
        else
          let rr := run_one_cycle es rest r.2.1
          (r.1 :: rr.1, rr.2)
      else
        let rr := run_one_cycle es rest log
        (t :: rr.1, rr.2)

/-- uptime_percent (lines 159-163): 0.0 on empty history, else the fraction
of UP entries times 100. -/
def uptime_percent (t : Target) : ℚ :=
  if t.history = [] then 0
  else ((t.history.count "UP" : ℚ) / (t.history.length : ℚ)) * 100

/-- One probe invocation against a single target: a ping check or a tcp
check together with its external inputs. -/
inductive ProbeCall where
  | ping (res : Except String PingHost) (env : ProbeEnv)
  | tcp (res : Except String ℚ) (env : ProbeEnv)

/-- The in-memory effect on one target of a sequence of probe invocations
(across any number of cycles). -/
def runProbes (calls : List ProbeCall) (t : Target) : Target :=
  match calls with
  | [] => t
  | .ping res env :: cs => runProbes cs (check_ping_update res env.now t)
  | .tcp res env :: cs => runProbes cs (check_tcp_update res env.now t)

/-- A sequence of log_result calls (timestamp and target snapshot each). -/
def logMany (entries : List (String × Target)) (log : LogFile) : LogFile :=
  match entries with
  | [] => log
  | p :: ps => logMany ps (log_result p.1 p.2 log)

/-! Helper lemmas. -/

theorem dequeAppend_length_le (xs : List String) (x : String) (h : xs.length ≤ 100) :
    (dequeAppend 100 xs x).length ≤ 100 := by
  simp only [dequeAppend, List.length_drop, List.length_append, List.length_cons,
    List.length_nil]
  omega

theorem dequeAppend_full (xs : List String) (x : String) (h : xs.length = 100) :
    dequeAppend 100 xs x = xs.tail ++ [x] := by
  simp only [dequeAppend, List.length_append, List.length_cons, List.length_nil, h]
  rw [show 100 + (0 + 1) - 100 = 1 by omega]
  rw [List.drop_append_of_le_length (by omega), List.drop_one]

theorem mem_dequeAppend (xs : List String) (x s : String)
    (h : s ∈ dequeAppend 100 xs x) : s ∈ xs ∨ s = x := by
  simp only [dequeAppend] at h
  have h2 := List.mem_of_mem_drop h
  rcases List.mem_append.mp h2 with h3 | h3
  · exact Or.inl h3
  · exact Or.inr (List.mem_singleton.mp h3)

theorem check_ping_update_history (res : Except String PingHost) (now : ℚ) (t : Target) :
    ∃ s, (s = "UP" ∨ s = "DOWN") ∧
      (check_ping_update res now t).history = dequeAppend 100 t.history s := by
  cases res with
  | ok r =>
      by_cases h : r.packet_loss < 1
      · exact ⟨"UP", Or.inl rfl, by simp [check_ping_update, h]⟩
      · exact ⟨"DOWN", Or.inr rfl, by simp [check_ping_update, h]⟩
  | error e => exact ⟨"DOWN", Or.inr rfl, rfl⟩

theorem check_tcp_update_history (res : Except String ℚ) (now : ℚ) (t : Target) :
    ∃ s, (s = "UP" ∨ s = "DOWN") ∧
      (check_tcp_update res now t).history = dequeAppend 100 t.history s := by
  rcases hp : t.port with _ | p
  · exact ⟨"DOWN", Or.inr rfl, by simp [check_tcp_update, hp]⟩
  · cases res with
    | ok d => exact ⟨"UP", Or.inl rfl, by simp [check_tcp_update, hp]⟩
    | error e => exact ⟨"DOWN", Or.inr rfl, by simp [check_tcp_update, hp]⟩

theorem uptime_percent_nonneg (t : Target) : 0 ≤ uptime_percent t := by
  unfold uptime_percent
  split
  · exact le_refl 0
  · positivity

theorem uptime_percent_le (t : Target) : uptime_percent t ≤ 100 := by
  unfold uptime_percent
  split
  · norm_num
  · rename_i h
    have hl : 0 < (t.history.length : ℚ) := by
      have := List.length_pos.mpr h
      exact_mod_cast this
    have hc : (t.history.count "UP" : ℚ) ≤ (t.history.length : ℚ) := by
      exact_mod_cast List.count_le_length "UP" t.history
    have h1 : (t.history.count "UP" : ℚ) / (t.history.length : ℚ) ≤ 1 :=
      (div_le_one hl).mpr hc
    calc (t.history.count "UP" : ℚ) / (t.history.length : ℚ) * 100
        ≤ 1 * 100 := by
          exact mul_le_mul_of_nonneg_right h1 (by norm_num)
      _ = 100 := by norm_num

/-! Concrete fixtures, as load_targets (lines 42-58) would construct them. -/

/-- Fixture: a ping target. -/
def pingTgt : Target := { name := "a", host := "h", type := "ping" }

/-- Fixture: a tcp target with a port. -/
def tcpTgt : Target := { name := "b", host := "h", type := "tcp", port := some 80 }

/-- Fixture: a tcp target missing its port. -/
def tcpNoPort : Target := { name := "c", host := "h", type := "tcp" }

/-- Fixture: a probe environment whose log write succeeds. -/
def envOk : ProbeEnv := { now := 5, ts := "T", logOk := true }

/-- Fixture: a probe environment whose log write fails. -/
def envBad : ProbeEnv := { now := 5, ts := "T", logOk := false }

/-- Fixture: a ping result with one echo sent and no replies (total loss). -/
def allLost : PingHost := { packets_sent := 1, rtts := [] }

/-- Fixture: a ping result with one echo sent and one reply of 2 ms. -/
def oneReply : PingHost := { packets_sent := 1, rtts := [2] }

/-- Fixture: an existing log file holding only the header. -/
def logP : LogFile := { present := true, rows := [headerRow] }

/-! Claim theorems. -/

/-- Claim C1 counterexample: a ping probe in which every sample is lost (one
echo sent, zero replies) completes without raising, sets status DOWN, yet
leaves last_rtt_ms set (to the returned avg_rtt, 0) instead of absent,
because line 109 stores result.avg_rtt unconditionally. -/
theorem c1_counterexample :
    (check_ping_run (.ok allLost) envOk pingTgt logP).1.status = "DOWN" ∧
    (check_ping_run (.ok allLost) envOk pingTgt logP).1.last_rtt_ms = some 0 := by
  have hloss : ¬ allLost.packet_loss < 1 := by
    norm_num [allLost, PingHost.packet_loss, PingHost.packets_received]
  constructor
  · simp [check_ping_run, check_ping_update, envOk, hloss]
  · simp [check_ping_run, check_ping_update, envOk, hloss, allLost, PingHost.avg_rtt]

/-- Claim C1 amended: after a probe completes, a DOWN status has last_rtt_ms
absent, with the two exceptions the code actually has: a ping call that
returns normally stores avg_rtt whatever the status (so a total-loss ping
leaves it set), and the tcp missing-port short circuit leaves last_rtt_ms
untouched. A ping that raises, and a tcp probe with a port that fails or
times out, do clear it. -/
theorem c1_amended (env : ProbeEnv) (t : Target) (log : LogFile) :
    (∀ e : String, (check_ping_run (.error e) env t log).1.last_rtt_ms = none) ∧
    (∀ r : PingHost, (check_ping_run (.ok r) env t log).1.last_rtt_ms = some r.avg_rtt) ∧
    (∀ (e : String) (p : Nat), t.port = some p →
      (check_tcp_run (.error e) env t log).1.last_rtt_ms = none) ∧
    (∀ res : Except String ℚ, t.port = none →
      (check_tcp_run res env t log).1.last_rtt_ms = t.last_rtt_ms) := by
  refine ⟨fun e => ?_, fun r => ?_, fun e p hp => ?_, fun res hp => ?_⟩
  · cases h : env.logOk <;> simp [check_ping_run, check_ping_update, h]
  · cases h : env.logOk <;> simp [check_ping_run, check_ping_update, h]
  · cases h : env.logOk <;> simp [check_tcp_run, check_tcp_update, hp, h]
  · cases h : env.logOk <;> simp [check_tcp_run, check_tcp_update, hp, h]

/-- Witness for c1_amended: a failing tcp connect on a target with a port
clears last_rtt_ms, and a tcp probe of a port-less target leaves it as it
was (absent on the fixture). -/
theorem c1_amended_witness :
    (check_tcp_run (.error "refused") envOk tcpTgt logP).1.last_rtt_ms = none ∧
    (check_tcp_run (.ok 1) envOk tcpNoPort logP).1.last_rtt_ms = tcpNoPort.last_rtt_ms :=
  ⟨(c1_amended envOk tcpTgt logP).2.2.1 "refused" 80 rfl,
   (c1_amended envOk tcpNoPort logP).2.2.2 (.ok 1) rfl⟩

/-- Claim C3: a ping probe that completes without raising sets status UP iff
measured packet loss is strictly below 100%, equivalently iff at least one
reply was received; and when UP, last_rtt_ms equals the average round-trip
time of the successful replies. -/
theorem c3_ping_up_iff (r : PingHost) (env : ProbeEnv) (t : Target) (log : LogFile)
    (hsent : 0 < r.packets_sent) :
    ((check_ping_run (.ok r) env t log).1.status = "UP" ↔ r.packet_loss < 1) ∧
    (r.packet_loss < 1 ↔ 0 < r.packets_received) ∧
    ((check_ping_run (.ok r) env t log).1.status = "UP" →
      (check_ping_run (.ok r) env t log).1.last_rtt_ms =
        some (r.rtts.sum / (r.rtts.length : ℚ))) := by
  have hs : (0 : ℚ) < (r.packets_sent : ℚ) := by exact_mod_cast hsent
  have hloss : r.packet_loss < 1 ↔ 0 < r.packets_received := by
    unfold PingHost.packet_loss
    rw [if_neg (Nat.pos_iff_ne_zero.mp hsent)]
    constructor
    · intro h
      have h2 : 0 < (r.packets_received : ℚ) / (r.packets_sent : ℚ) := by linarith
      by_contra hc
      push_neg at hc
      interval_cases hr : r.packets_received
      · simp [hr] at h2
    · intro h
      have h2 : 0 < (r.packets_received : ℚ) := by exact_mod_cast h
      have h3 : 0 < (r.packets_received : ℚ) / (r.packets_sent : ℚ) := div_pos h2 hs
      linarith
  have hstat : (check_ping_run (.ok r) env t log).1.status =
      (if r.packet_loss < 1 then "UP" else "DOWN") := by
    cases h : env.logOk <;> simp [check_ping_run, check_ping_update, h]
  refine ⟨?_, hloss, ?_⟩
  · rw [hstat]
    by_cases h : r.packet_loss < 1 <;> simp [h]
  · intro hup
    have hl : r.packet_loss < 1 := by
      rw [hstat] at hup
      by_cases h : r.packet_loss < 1
      · exact h
      · simp [h] at hup
    have hne : r.rtts ≠ [] := by
      have := hloss.mp hl
      unfold PingHost.packets_received at this
      exact List.length_pos.mp this
    have havg : r.avg_rtt = r.rtts.sum / (r.rtts.length : ℚ) := by
      unfold PingHost.avg_rtt
      rw [if_neg hne]
    cases h : env.logOk <;>
      simp [check_ping_run, check_ping_update, h, havg]

/-- Witness for c3_ping_up_iff: one echo sent, one 2 ms reply received gives
status UP and last_rtt_ms = 2. -/
theorem c3_witness :
    (check_ping_run (.ok oneReply) envOk pingTgt logP).1.status = "UP" ∧
    (check_ping_run (.ok oneReply) envOk pingTgt logP).1.last_rtt_ms =
      some (oneReply.rtts.sum / (oneReply.rtts.length : ℚ)) := by
  have h := c3_ping_up_iff oneReply envOk pingTgt logP (by decide)
  have hup : (check_ping_run (.ok oneReply) envOk pingTgt logP).1.status = "UP" :=
    h.1.mpr (by norm_num [oneReply, PingHost.packet_loss, PingHost.packets_received])
  exact ⟨hup, h.2.2 hup⟩

/-- Claim C4: a tcp probe of a target whose port is None short-circuits on
every invocation: status DOWN, the exact error "TCP check requires port",
last_checked updated, DOWN appended to history, no exception escaping, and
(when the log write succeeds) exactly one data record appended; and the
whole step is independent of the connect result, so no network attempt is
consulted. -/
theorem c4_tcp_no_port (res res2 : Except String ℚ) (env : ProbeEnv) (t : Target)
    (log : LogFile) (hp : t.port = none) (hok : env.logOk = true) :
    (check_tcp_run res env t log).1.status = "DOWN" ∧
    (check_tcp_run res env t log).1.last_error = some "TCP check requires port" ∧
    (check_tcp_run res env t log).1.last_checked = some env.now ∧
    (check_tcp_run res env t log).1.history = dequeAppend 100 t.history "DOWN" ∧
    (check_tcp_run res env t log).2.2 = false ∧
    (check_tcp_run res env t log).2.1.rows =
      log.rows ++ (if log.present then [] else [headerRow])
        ++ [resultRow env.ts (check_tcp_run res env t log).1] ∧
    check_tcp_run res env t log = check_tcp_run res2 env t log := by
  refine ⟨?_, ?_, ?_, ?_, ?_, ?_, ?_⟩ <;>
    simp [check_tcp_run, check_tcp_update, hp, hok, log_result]

/-- Witness for c4_tcp_no_port: the port-less fixture probed with a
successful connect oracle still goes DOWN with the fixed message, and the
step equals the one probed with a failing oracle. -/
theorem c4_witness :
    (check_tcp_run (.ok 3) envOk tcpNoPort logP).1.status = "DOWN" ∧
    (check_tcp_run (.ok 3) envOk tcpNoPort logP).1.last_error =
      some "TCP check requires port" ∧
    check_tcp_run (.ok 3) envOk tcpNoPort logP =
      check_tcp_run (.error "x") envOk tcpNoPort logP := by
  have h := c4_tcp_no_port (Except.ok 3) (Except.error "x") envOk tcpNoPort logP rfl rfl
  exact ⟨h.1, h.2.1, h.2.2.2.2.2.2⟩

/-- Claim C6: uptime_percent is a pure function of the history field; it
returns 0 on empty history, otherwise 100 * (count of UP entries) / length,
and on the history [UP, UP, DOWN, UP] it returns 75. -/
theorem c6_uptime (t u : Target) (hsame : t.history = u.history) :
    uptime_percent t = uptime_percent u ∧
    (t.history = [] → uptime_percent t = 0) ∧
    (t.history ≠ [] →
      uptime_percent t = 100 * (t.history.count "UP" : ℚ) / (t.history.length : ℚ)) ∧
    (t.history = ["UP", "UP", "DOWN", "UP"] → uptime_percent t = 75) := by
  refine ⟨?_, ?_, ?_, ?_⟩
  · unfold uptime_percent
    rw [hsame]
  · intro h
    simp [uptime_percent, h]
  · intro h
    unfold uptime_percent
    rw [if_neg h]
    ring
  · intro h
    have hc : List.count "UP" ["UP", "UP", "DOWN", "UP"] = 3 := rfl
    have hl : List.length (["UP", "UP", "DOWN", "UP"] : List String) = 4 := rfl
    simp only [uptime_percent, h]
    rw [if_neg (by simp), hc, hl]
    norm_num

/-- Witness for c6_uptime: a target whose history is [UP, UP, DOWN, UP] has
uptime 75. -/
theorem c6_witness :
    uptime_percent { pingTgt with history := ["UP", "UP", "DOWN", "UP"] } = 75 :=
  (c6_uptime { pingTgt with history := ["UP", "UP", "DOWN", "UP"] }
    { pingTgt with history := ["UP", "UP", "DOWN", "UP"] } rfl).2.2.2 rfl

/-- Claim C7: after any sequence of probe invocations history length stays
at most 100, and a probe on a history already at capacity 100 evicts exactly
the oldest entry: the new history is the old one without its head, with the
new status appended at the newest end. -/
theorem c7_history_bound (calls : List ProbeCall) (t : Target)
    (h : t.history.length ≤ 100) :
    (runProbes calls t).history.length ≤ 100 ∧
    (∀ (u : Target) (c : ProbeCall), u.history.length = 100 →
      ∃ s, (runProbes [c] u).history = u.history.tail ++ [s]) := by
  constructor
  · induction calls generalizing t with
    | nil => exact h
    | cons c cs ih =>
        cases c with
        | ping res env =>
            have hb : (check_ping_update res env.now t).history.length ≤ 100 := by
              obtain ⟨s, _, hh⟩ := check_ping_update_history res env.now t
              rw [hh]
              exact dequeAppend_length_le t.history s h
            exact ih (check_ping_update res env.now t) hb
        | tcp res env =>
            have hb : (check_tcp_update res env.now t).history.length ≤ 100 := by
              obtain ⟨s, _, hh⟩ := check_tcp_update_history res env.now t
              rw [hh]
              exact dequeAppend_length_le t.history s h
            exact ih (check_tcp_update res env.now t) hb
  · intro u c hu
    cases c with
    | ping res env =>
        obtain ⟨s, _, hh⟩ := check_ping_update_history res env.now u
        exact ⟨s, by simp [runProbes, hh, dequeAppend_full u.history s hu]⟩
    | tcp res env =>
        obtain ⟨s, _, hh⟩ := check_tcp_update_history res env.now u
        exact ⟨s, by simp [runProbes, hh, dequeAppend_full u.history s hu]⟩

/-- Witness for c7_history_bound: after one ping invocation on the fresh
fixture the history length is at most 100. -/
theorem c7_witness :
    (runProbes [ProbeCall.ping (.ok oneReply) envOk] pingTgt).history.length ≤ 100 :=
  (c7_history_bound [ProbeCall.ping (.ok oneReply) envOk] pingTgt
    (by decide)).1

/-- Claim C10: each probe path appends exactly the status it just assigned,
always UP or DOWN, so any history made of UP and DOWN entries stays that way
under every sequence of probe invocations, and uptime_percent always lies
between 0 and 100. -/
theorem c10_history_entries (calls : List ProbeCall) (t : Target)
    (h : ∀ s ∈ t.history, s = "UP" ∨ s = "DOWN") :
    (∀ s ∈ (runProbes calls t).history, s = "UP" ∨ s = "DOWN") ∧
    0 ≤ uptime_percent (runProbes calls t) ∧
    uptime_percent (runProbes calls t) ≤ 100 := by
  refine ⟨?_, uptime_percent_nonneg _, uptime_percent_le _⟩
  induction calls generalizing t with
  | nil => exact h
  | cons c cs ih =>
      cases c with
      | ping res env =>
          refine ih (check_ping_update res env.now t) ?_
          obtain ⟨s, hs, hh⟩ := check_ping_update_history res env.now t
          intro x hx
          rw [hh] at hx
          rcases mem_dequeAppend t.history s x hx with h2 | h2
          · exact h x h2
          · rw [h2]; exact hs
      | tcp res env =>
          refine ih (check_tcp_update res env.now t) ?_
          obtain ⟨s, hs, hh⟩ := check_tcp_update_history res env.now t
          intro x hx
          rw [hh] at hx
          rcases mem_dequeAppend t.history s x hx with h2 | h2
          · exact h x h2
          · rw [h2]; exact hs

/-- Witness for c10_history_entries: after a failed ping then a successful
tcp connect on the fresh ping fixture, every history entry is UP or DOWN and
the uptime lies between 0 and 100. -/
theorem c10_witness :
    (∀ s ∈ (runProbes [ProbeCall.ping (.error "e") envOk,
        ProbeCall.tcp (.ok 1) envOk] tcpTgt).history, s = "UP" ∨ s = "DOWN") ∧
    0 ≤ uptime_percent (runProbes [ProbeCall.ping (.error "e") envOk,
        ProbeCall.tcp (.ok 1) envOk] tcpTgt) ∧
    uptime_percent (runProbes [ProbeCall.ping (.error "e") envOk,
        ProbeCall.tcp (.ok 1) envOk] tcpTgt) ≤ 100 :=
  c10_history_entries [ProbeCall.ping (.error "e") envOk,
    ProbeCall.tcp (.ok 1) envOk] tcpTgt (by intro s hs; simp [tcpTgt] at hs)

/-! Cycle-level helper lemmas. -/

theorem run_one_cycle_head_fail (e : CycleEnv) (es : List CycleEnv) (t : Target)
    (rest : List Target) (log : LogFile) (hbad : e.env.logOk = false)
    (ht : t.type = "ping" ∨ t.type = "tcp") :
    run_one_cycle (e :: es) (t :: rest) log = (dispatch e t :: rest, log, true) := by
  rcases ht with h | h
  · simp [run_one_cycle, check_ping_run, dispatch, h, hbad]
  · simp [run_one_cycle, check_tcp_run, dispatch, h, hbad]

theorem run_one_cycle_head_ok (e : CycleEnv) (es : List CycleEnv) (t : Target)
    (rest : List Target) (log : LogFile) (hok : e.env.logOk = true)
    (ht : t.type = "ping" ∨ t.type = "tcp") :
    run_one_cycle (e :: es) (t :: rest) log =
      (dispatch e t ::
        (run_one_cycle es rest (log_result e.env.ts (dispatch e t) log)).1,
       (run_one_cycle es rest (log_result e.env.ts (dispatch e t) log)).2) := by
  rcases ht with h | h
  · simp [run_one_cycle, check_ping_run, dispatch, h, hok]
  · simp [run_one_cycle, check_tcp_run, dispatch, h, hok]

theorem run_one_cycle_head_skip (e : CycleEnv) (es : List CycleEnv) (t : Target)
    (rest : List Target) (log : LogFile) (h1 : t.type ≠ "ping") (h2 : t.type ≠ "tcp") :
    run_one_cycle (e :: es) (t :: rest) log =
      (t :: (run_one_cycle es rest log).1, (run_one_cycle es rest log).2) := by
  simp [run_one_cycle, h1, h2]

theorem run_one_cycle_append (pre : List CycleEnv) (ts1 : List Target)
    (es : List CycleEnv) (ts2 : List Target) (log : LogFile)
    (hlen : pre.length = ts1.length)
    (hok : ∀ x ∈ pre, x.env.logOk = true) :
    run_one_cycle (pre ++ es) (ts1 ++ ts2) log =
      ((run_one_cycle pre ts1 log).1 ++
        (run_one_cycle es ts2 (run_one_cycle pre ts1 log).2.1).1,
       (run_one_cycle es ts2 (run_one_cycle pre ts1 log).2.1).2) := by
  induction ts1 generalizing pre log with
  | nil =>
      cases pre with
      | nil => simp [run_one_cycle]
      | cons x xs => simp at hlen
  | cons a as ih =>
      cases pre with
      | nil => simp at hlen
      | cons x xs =>
          have hxok : x.env.logOk = true := hok x (by simp)
          have hxs : ∀ y ∈ xs, y.env.logOk = true := fun y hy => hok y (by simp [hy])
          have hlen2 : xs.length = as.length := by simpa using hlen
          by_cases h1 : a.type = "ping"
          · rw [List.cons_append, List.cons_append,
              run_one_cycle_head_ok x (xs ++ es) a (as ++ ts2) log hxok (Or.inl h1),
              run_one_cycle_head_ok x xs a as log hxok (Or.inl h1),
              ih xs _ hlen2 hxs]
            simp
          · by_cases h2 : a.type = "tcp"
            · rw [List.cons_append, List.cons_append,
                run_one_cycle_head_ok x (xs ++ es) a (as ++ ts2) log hxok (Or.inr h2),
                run_one_cycle_head_ok x xs a as log hxok (Or.inr h2),
                ih xs _ hlen2 hxs]
              simp
            · rw [List.cons_append, List.cons_append,
                run_one_cycle_head_skip x (xs ++ es) a (as ++ ts2) log h1 h2,
                run_one_cycle_head_skip x xs a as log h1 h2,
                ih xs _ hlen2 hxs]
              simp

theorem dispatch_update (e : CycleEnv) (t : Target)
    (ht : t.type = "ping" ∨ t.type = "tcp") :
    (dispatch e t).last_checked = some e.env.now ∧
    ∃ s, (s = "UP" ∨ s = "DOWN") ∧ (dispatch e t).status = s ∧
      (dispatch e t).history = dequeAppend 100 t.history s := by
  rcases ht with h | h
  · cases hres : e.pingRes with
    | ok r =>
        by_cases hl : r.packet_loss < 1
        · exact ⟨by simp [dispatch, h, hres, check_ping_update, hl],
            "UP", Or.inl rfl, by simp [dispatch, h, hres, check_ping_update, hl],
            by simp [dispatch, h, hres, check_ping_update, hl]⟩
        · exact ⟨by simp [dispatch, h, hres, check_ping_update, hl],
            "DOWN", Or.inr rfl, by simp [dispatch, h, hres, check_ping_update, hl],
            by simp [dispatch, h, hres, check_ping_update, hl]⟩
    | error msg =>
        exact ⟨by simp [dispatch, h, hres, check_ping_update],
          "DOWN", Or.inr rfl, by simp [dispatch, h, hres, check_ping_update],
          by simp [dispatch, h, hres, check_ping_update]⟩
  · have hne : t.type ≠ "ping" := by rw [h]; decide
    cases hp : t.port with
    | none =>
        exact ⟨by simp [dispatch, h, hne, check_tcp_update, hp],
          "DOWN", Or.inr rfl, by simp [dispatch, h, hne, check_tcp_update, hp],
          by simp [dispatch, h, hne, check_tcp_update, hp]⟩
    | some p =>
        cases hres : e.tcpRes with
        | ok d =>
            exact ⟨by simp [dispatch, h, hne, check_tcp_update, hp, hres],
              "UP", Or.inl rfl, by simp [dispatch, h, hne, check_tcp_update, hp, hres],
              by simp [dispatch, h, hne, check_tcp_update, hp, hres]⟩
        | error msg =>
            exact ⟨by simp [dispatch, h, hne, check_tcp_update, hp, hres],
              "DOWN", Or.inr rfl, by simp [dispatch, h, hne, check_tcp_update, hp, hres],
              by simp [dispatch, h, hne, check_tcp_update, hp, hres]⟩

/-! Fixtures for cycle-level claims. -/

/-- Fixture: a second ping target. -/
def pingTgt2 : Target := { name := "d", host := "h2", type := "ping" }

/-- Fixture: a target of an unknown kind, skipped by the cycle. -/
def httpTgt : Target := { name := "e", host := "h", type := "http" }

/-- Fixture: cycle inputs whose log write fails. -/
def cenvBad : CycleEnv := { pingRes := .ok oneReply, tcpRes := .error "x", env := envBad }

/-- Fixture: cycle inputs whose log write succeeds. -/
def cenvOk : CycleEnv := { pingRes := .ok oneReply, tcpRes := .error "x", env := envOk }

/-- Claim C2 counterexample: when the log append for the first target fails,
the exception escapes check_ping and aborts run_one_cycle: the cycle reports
the escape, the second target is left exactly as configured (its
last_checked still absent shows it was never probed), and nothing was
recorded — refuting the claim that a persistence failure does not abort the
cycle and every remaining target is still probed and recorded. -/
theorem c2_counterexample :
    (run_one_cycle [cenvBad, cenvOk] [pingTgt, pingTgt2] logP).2.2 = true ∧
    (run_one_cycle [cenvBad, cenvOk] [pingTgt, pingTgt2] logP).1.get? 1 = some pingTgt2 ∧
    pingTgt2.last_checked = none ∧
    (run_one_cycle [cenvBad, cenvOk] [pingTgt, pingTgt2] logP).2.1 = logP := by
  have h := run_one_cycle_head_fail cenvBad [cenvOk] pingTgt [pingTgt2] logP rfl
    (Or.inl rfl)
  exact ⟨by rw [h], by rw [h]; rfl, rfl, by rw [h]⟩

/-- Claim C2 amended: when the persistence append for a target fails, that
target's in-memory update still fully takes effect (status and history entry
assigned, last_checked set), and the failure does not roll anything back;
but the exception escapes the check call and aborts the running cycle:
targets before the failing one keep their updates and records, targets after
it are left untouched and unrecorded, and the escaped exception is
reported by the cycle. -/
theorem c2_abort (pre : List CycleEnv) (ts1 : List Target) (e : CycleEnv)
    (t : Target) (rest : List Target) (es : List CycleEnv) (log : LogFile)
    (hlen : pre.length = ts1.length)
    (hok : ∀ x ∈ pre, x.env.logOk = true)
    (hbad : e.env.logOk = false)
    (ht : t.type = "ping" ∨ t.type = "tcp") :
    run_one_cycle (pre ++ e :: es) (ts1 ++ t :: rest) log =
      ((run_one_cycle pre ts1 log).1 ++ dispatch e t :: rest,
       (run_one_cycle pre ts1 log).2.1, true) ∧
    (dispatch e t).last_checked = some e.env.now ∧
    (∃ s, (s = "UP" ∨ s = "DOWN") ∧ (dispatch e t).status = s ∧
      (dispatch e t).history = dequeAppend 100 t.history s) := by
  refine ⟨?_, (dispatch_update e t ht).1, (dispatch_update e t ht).2⟩
  rw [run_one_cycle_append pre ts1 (e :: es) (t :: rest) log hlen hok,
    run_one_cycle_head_fail e es t rest _ hbad ht]

/-- Witness for c2_abort: a two-target cycle whose first log write fails
aborts with the first target's in-memory update applied. -/
theorem c2_witness :
    (run_one_cycle [cenvBad, cenvOk] [pingTgt, pingTgt2] logP).2.2 = true ∧
    (dispatch cenvBad pingTgt).last_checked = some cenvBad.env.now := by
  have h := c2_abort [] [] cenvBad pingTgt [pingTgt2] [cenvOk] logP rfl
    (by intro x hx; simp at hx) rfl (Or.inl rfl)
  simp only [List.nil_append] at h
  exact ⟨by rw [h.1], h.2.1⟩

/-- The data rows one cycle appends: one per target of kind ping or tcp (the
snapshot written by the log_result call inside its check), none for a target
of any other kind. -/
def cycleRows (envs : List CycleEnv) (targets : List Target) : List (List String) :=
  match targets, envs with
  | [], _ => []
  | _, [] => []
  | t :: rest, e :: es =>
      if t.type = "ping" ∨ t.type = "tcp"
      then resultRow e.env.ts (dispatch e t) :: cycleRows es rest
      else cycleRows es rest

theorem run_one_cycle_ok_all (envs : List CycleEnv) (targets : List Target)
    (log : LogFile) (hok : ∀ x ∈ envs, x.env.logOk = true)
    (hpres : log.present = true) (hlen : envs.length = targets.length) :
    run_one_cycle envs targets log =
      (List.zipWith dispatch envs targets,
       { present := true, rows := log.rows ++ cycleRows envs targets }, false) := by
  induction targets generalizing envs log with
  | nil =>
      cases envs with
      | nil =>
          cases log with
          | mk p rows => simp at hpres; simp [run_one_cycle, cycleRows, hpres]
      | cons x xs => simp at hlen
  | cons a as ih =>
      cases envs with
      | nil => simp at hlen
      | cons x xs =>
          have hxok : x.env.logOk = true := hok x (by simp)
          have hxs : ∀ y ∈ xs, y.env.logOk = true := fun y hy => hok y (by simp [hy])
          have hlen2 : xs.length = as.length := by simpa using hlen
          by_cases h1 : a.type = "ping"
          · rw [run_one_cycle_head_ok x xs a as log hxok (Or.inl h1),
              ih xs (log_result x.env.ts (dispatch x a) log) hxs rfl hlen2]
            simp [cycleRows, h1, log_result, hpres]
          · by_cases h2 : a.type = "tcp"
            · rw [run_one_cycle_head_ok x xs a as log hxok (Or.inr h2),
                ih xs (log_result x.env.ts (dispatch x a) log) hxs rfl hlen2]
              simp [cycleRows, h1, h2, log_result, hpres]
            · rw [run_one_cycle_head_skip x xs a as log h1 h2,
                ih xs log hxs hpres hlen2]
              simp [cycleRows, h1, h2, dispatch]

theorem cycleRows_length (envs : List CycleEnv) (targets : List Target)
    (hlen : envs.length = targets.length) :
    (cycleRows envs targets).length =
      targets.countP (fun t => decide (t.type = "ping" ∨ t.type = "tcp")) := by
  induction targets generalizing envs with
  | nil => simp [cycleRows]
  | cons a as ih =>
      cases envs with
      | nil => simp at hlen
      | cons x xs =>
          have hlen2 : xs.length = as.length := by simpa using hlen
          by_cases h : a.type = "ping" ∨ a.type = "tcp"
          · simp [cycleRows, h, ih xs hlen2, List.countP_cons]
          · simp [cycleRows, h, ih xs hlen2, List.countP_cons]

/-- Claim C8: with every target of kind ping or tcp and the log writable,
one run of the cycle probes every target exactly once in registry order —
the output list is exactly the input list zipped with the per-target check
dispatched on its kind — no exception escapes, and every target is
recorded: the log grows by exactly one data row per target, whatever each
individual probe outcome (errors, timeouts or a missing port included). -/
theorem c8_cycle (envs : List CycleEnv) (targets : List Target) (log : LogFile)
    (hok : ∀ x ∈ envs, x.env.logOk = true)
    (hpres : log.present = true)
    (hlen : envs.length = targets.length)
    (hkind : ∀ t ∈ targets, t.type = "ping" ∨ t.type = "tcp") :
    (run_one_cycle envs targets log).1 = List.zipWith dispatch envs targets ∧
    (run_one_cycle envs targets log).1.length = targets.length ∧
    (run_one_cycle envs targets log).2.2 = false ∧
    (run_one_cycle envs targets log).2.1.rows.length =
      log.rows.length + targets.length := by
  have h := run_one_cycle_ok_all envs targets log hok hpres hlen
  have hcnt : targets.countP (fun t => decide (t.type = "ping" ∨ t.type = "tcp")) =
      targets.length := by
    rw [List.countP_eq_length]
    intro t ht
    simpa using hkind t ht
  refine ⟨by rw [h], ?_, by rw [h], ?_⟩
  · rw [h]
    simp [List.length_zipWith, hlen]
  · rw [h]
    simp only [List.length_append, cycleRows_length envs targets hlen]
    rw [hcnt]

/-- Witness for c8_cycle: a two-target cycle (a ping target and a port-less
tcp target, the latter a misconfiguration) probes both, appends two records
to the one-row log, and no exception escapes. -/
theorem c8_witness :
    (run_one_cycle [cenvOk, cenvOk] [pingTgt, tcpNoPort] logP).1.length = 2 ∧
    (run_one_cycle [cenvOk, cenvOk] [pingTgt, tcpNoPort] logP).2.2 = false ∧
    (run_one_cycle [cenvOk, cenvOk] [pingTgt, tcpNoPort] logP).2.1.rows.length = 3 := by
  have h := c8_cycle [cenvOk, cenvOk] [pingTgt, tcpNoPort] logP
    (by
      intro x hx
      simp [List.mem_cons] at hx
      subst hx
      rfl)
    rfl rfl
    (by intro t ht; simp [List.mem_cons] at ht
        rcases ht with rfl | rfl
        · exact Or.inl rfl
        · exact Or.inr rfl)
  exact ⟨h.2.1, h.2.2.1, h.2.2.2⟩

/-- Claim C9: a target whose kind is neither ping nor tcp is silently
skipped by run_one_cycle: the cycle completes with no escaped exception,
that target comes out exactly as it went in (status, history, last_checked,
everything unchanged), and the log grows only by the rows of the ping and
tcp targets, so no record is written for the skipped one. -/
theorem c9_unknown_skipped (envs : List CycleEnv) (targets : List Target)
    (log : LogFile) (hok : ∀ x ∈ envs, x.env.logOk = true)
    (hpres : log.present = true) (hlen : envs.length = targets.length)
    (i : Nat) (hi : i < targets.length)
    (h1 : (targets.get ⟨i, hi⟩).type ≠ "ping")
    (h2 : (targets.get ⟨i, hi⟩).type ≠ "tcp") :
    (run_one_cycle envs targets log).2.2 = false ∧
    (run_one_cycle envs targets log).1.get? i = some (targets.get ⟨i, hi⟩) ∧
    (run_one_cycle envs targets log).2.1.rows.length =
      log.rows.length +
        targets.countP (fun t => decide (t.type = "ping" ∨ t.type = "tcp")) := by
  have h := run_one_cycle_ok_all envs targets log hok hpres hlen
  refine ⟨by rw [h], ?_, ?_⟩
  · rw [h]
    have hie : i < envs.length := by rw [hlen]; exact hi
    rw [List.get?_zipWith', List.get?_eq_get hie, List.get?_eq_get hi]
    simp only [List.get_eq_getElem] at h1 h2
    simp [dispatch, h1, h2]
  · rw [h]
    simp [cycleRows_length envs targets hlen]

/-- Witness for c9_unknown_skipped: in a cycle over a ping target and an
http target, the http target is returned unchanged and only one record is
appended. -/
theorem c9_witness :
    (run_one_cycle [cenvOk, cenvOk] [pingTgt, httpTgt] logP).2.2 = false ∧
    (run_one_cycle [cenvOk, cenvOk] [pingTgt, httpTgt] logP).1.get? 1 =
      some httpTgt ∧
    (run_one_cycle [cenvOk, cenvOk] [pingTgt, httpTgt] logP).2.1.rows.length = 2 := by
  have h := c9_unknown_skipped [cenvOk, cenvOk] [pingTgt, httpTgt] logP
    (by
      intro x hx
      simp [List.mem_cons] at hx
      subst hx
      rfl)
    rfl rfl 1 (by decide) (by decide) (by decide)
  exact ⟨h.1, h.2.1, h.2.2⟩

/-! Formatting and persistence-log lemmas for the Result Recorder claim. -/

theorem frac3_length (k : Nat) : (frac3 k).length = 3 := rfl

theorem fmt3_decomp (q : ℚ) :
    fmt3 q = ((if round (q * 1000) < 0 then "-" else "") ++
        toString ((round (q * 1000)).natAbs / 1000)) ++ "." ++
      frac3 ((round (q * 1000)).natAbs % 1000) := rfl

theorem fmt3_ne_empty (q : ℚ) : fmt3 q ≠ "" := by
  intro h
  have h2 := congrArg String.length h
  rw [fmt3_decomp] at h2
  rw [String.length_append, String.length_append, frac3_length] at h2
  have hdot : (".").length = 1 := rfl
  have hempty : ("" : String).length = 0 := rfl
  rw [hdot, hempty] at h2
  omega

theorem fmt3_zero : fmt3 0 = "0.000" := by
  have hr : round ((0 : ℚ) * 1000) = 0 := by norm_num
  rw [fmt3_decomp, hr]
  rfl

theorem log_result_present (ts : String) (t : Target) (log : LogFile) :
    (log_result ts t log).present = true := rfl

theorem logMany_of_present (entries : List (String × Target)) (log : LogFile)
    (h : log.present = true) :
    (logMany entries log).present = true ∧
    (logMany entries log).rows.length = log.rows.length + entries.length ∧
    (log.rows ≠ [] → (logMany entries log).rows.head? = log.rows.head?) := by
  induction entries generalizing log with
  | nil => simp [logMany, h]
  | cons p ps ih =>
      obtain ⟨ih1, ih2, ih3⟩ := ih (log_result p.1 p.2 log) rfl
      refine ⟨ih1, ?_, ?_⟩
      · rw [show logMany (p :: ps) log = logMany ps (log_result p.1 p.2 log) from rfl,
          ih2]
        simp [log_result, h]
        omega
      · intro hne
        have hstep : (log_result p.1 p.2 log).rows.head? = log.rows.head? := by
          show (log.rows ++ (if log.present then [] else [headerRow]) ++
            [resultRow p.1 p.2]).head? = log.rows.head?
          rw [List.head?_append_of_ne_nil _ (by simp [hne]),
            List.head?_append_of_ne_nil _ hne]
        have hne2 : (log_result p.1 p.2 log).rows ≠ [] := by simp [log_result]
        rw [show logMany (p :: ps) log = logMany ps (log_result p.1 p.2 log) from rfl,
          ih3 hne2, hstep]

theorem logMany_from_empty (entries : List (String × Target)) (hne : entries ≠ []) :
    (logMany entries { present := false, rows := [] }).rows.length =
      entries.length + 1 ∧
    (logMany entries { present := false, rows := [] }).rows.head? = some headerRow := by
  cases entries with
  | nil => exact absurd rfl hne
  | cons p ps =>
      have hfirst : log_result p.1 p.2 { present := false, rows := [] } =
          { present := true, rows := [headerRow, resultRow p.1 p.2] } := rfl
      have h := logMany_of_present ps
        { present := true, rows := [headerRow, resultRow p.1 p.2] } rfl
      constructor
      · rw [show logMany (p :: ps) { present := false, rows := [] } =
            logMany ps (log_result p.1 p.2 { present := false, rows := [] }) from rfl,
          hfirst, h.2.1]
        simp
        omega
      · rw [show logMany (p :: ps) { present := false, rows := [] } =
            logMany ps (log_result p.1 p.2 { present := false, rows := [] }) from rfl,
          hfirst, h.2.2 (by simp)]
        rfl

/-- Claim C5 counterexample: after a ping probe whose every sample is lost
(a failed probe: status DOWN), last_rtt_ms remains set, so the record that
log_result appends carries the non-empty rtt_ms cell "0.000" — refuting
that the rtt_ms field is empty unless the probe succeeded. -/
theorem c5_counterexample :
    (check_ping_update (.ok allLost) 5 pingTgt).status = "DOWN" ∧
    rttField (check_ping_update (.ok allLost) 5 pingTgt).last_rtt_ms = "0.000" ∧
    (log_result "T" (check_ping_update (.ok allLost) 5 pingTgt) logP).rows =
      [headerRow, ["T", "a", "h", "ping", "", "DOWN", "0.000", ""]] := by
  have hloss : ¬ allLost.packet_loss < 1 := by
    norm_num [allLost, PingHost.packet_loss, PingHost.packets_received]
  have havg : PingHost.avg_rtt allLost = 0 := by simp [allLost, PingHost.avg_rtt]
  refine ⟨by simp [check_ping_update, hloss], ?_, ?_⟩
  · simp [check_ping_update, hloss, rttField, havg, fmt3_zero]
  · simp [check_ping_update, hloss, log_result, logP, resultRow, pingTgt,
      portField, rttField, errorField, havg, fmt3_zero]

/-- Claim C5 amended: every log_result call appends exactly one data record
as its new last row (two rows counting the header, written exactly once on
first creation: from an absent empty file, after n calls the first row is
the header and there are exactly n data rows after it); in each record the
rtt_ms cell is empty iff last_rtt_ms is absent — which is implied by, but
not equivalent to, probe failure, since a total-loss ping leaves last_rtt_ms
set with status DOWN — and otherwise shows the value with exactly three
decimal digits; the error cell is empty when no error message is present;
the port cell is empty when the port is absent. -/
theorem c5_log_contract (ts : String) (t : Target) (log : LogFile)
    (entries : List (String × Target)) :
    (log_result ts t log).rows.length =
      log.rows.length + (if log.present then 1 else 2) ∧
    (log_result ts t log).rows.getLast? = some (resultRow ts t) ∧
    (rttField t.last_rtt_ms = "" ↔ t.last_rtt_ms = none) ∧
    (∀ q : ℚ, t.last_rtt_ms = some q →
      ∃ s : String, rttField t.last_rtt_ms =
          s ++ "." ++ frac3 ((round (q * 1000)).natAbs % 1000) ∧
        (frac3 ((round (q * 1000)).natAbs % 1000)).length = 3) ∧
    (t.last_error = none → errorField t.last_error = "") ∧
    (t.port = none → portField t.port = "") ∧
    (entries ≠ [] →
      (logMany entries { present := false, rows := [] }).rows.length =
        entries.length + 1 ∧
      (logMany entries { present := false, rows := [] }).rows.head? =
        some headerRow) := by
  refine ⟨?_, ?_, ?_, ?_, ?_, ?_, logMany_from_empty entries⟩
  · cases hp : log.present <;> simp [log_result, hp]
  · show (log.rows ++ (if log.present then [] else [headerRow]) ++
      [resultRow ts t]).getLast? = some (resultRow ts t)
    rw [List.getLast?_append]
    rfl
  · cases hr : t.last_rtt_ms with
    | none => simp [rttField]
    | some q => simp [rttField, fmt3_ne_empty q]
  · intro q hq
    rw [hq]
    exact ⟨(if round (q * 1000) < 0 then "-" else "") ++
      toString ((round (q * 1000)).natAbs / 1000), rfl, rfl⟩
  · intro he
    simp [errorField, he]
  · intro hp
    simp [portField, hp]

/-- Witness for c5_log_contract: one call on the header-only log makes two
rows with the fixture's record last; from the absent empty log, one call
yields two rows headed by the header row. -/
theorem c5_witness :
    (log_result "T" pingTgt logP).rows.length = 2 ∧
    (log_result "T" pingTgt logP).rows.getLast? = some (resultRow "T" pingTgt) ∧
    (logMany [("T", pingTgt)] { present := false, rows := [] }).rows.head? =
      some headerRow := by
  have h := c5_log_contract "T" pingTgt logP [("T", pingTgt)]
  refine ⟨?_, h.2.1, (h.2.2.2.2.2.2 (by simp)).2⟩
  have h1 := h.1
  simpa [logP] using h1

end HostMonitor
